import Mathlib

/-!
Shallow embedding of the stock-management and loan-lifecycle core of the
BIBLIOTECA-BACKEND repository (a NestJS + Mongoose school-library backend),
together with proofs about the embedded operations.

Conventions of the embedding:
* Mongo `ObjectId`s are plain strings (`OId`); the helper
  `MongoUtils.isValidObjectId` (whose implementation lives outside the given
  sources) is taken as an arbitrary boolean predicate `valid : OId → Bool`
  passed to every service function, exactly as the services consult it.
* JavaScript `Date` values are integers: milliseconds since the Unix epoch.
* A Mongo collection is an association list from id to document; the driver
  primitives `findById`, `findByIdAndUpdate`, `findByIdAndDelete` become
  `findEntry`, `setEntry`, `eraseEntry`.
* A service method that can `throw` returns an `Except ServiceError` value,
  paired with the (possibly updated) stores it touched.
-/

namespace Biblio

abbrev OId := String

/-- JavaScript `Date` timestamps: milliseconds since the Unix epoch. -/
abbrev Ms := Int

def msPerDay : Int := 86400000

/-! ### Association-list stores (the Mongo collections) -/

def findEntry {α : Type} (s : List (OId × α)) (id : OId) : Option α :=
  match s with
  | [] => none
  | (k, v) :: rest => if k = id then some v else findEntry rest id

def setEntry {α : Type} (s : List (OId × α)) (id : OId) (v : α) : List (OId × α) :=
  match s with
  | [] => []
  | (k, w) :: rest => if k = id then (k, v) :: setEntry rest id v else (k, w) :: setEntry rest id v

def eraseEntry {α : Type} (s : List (OId × α)) (id : OId) : List (OId × α) :=
  s.filter (fun kv => kv.1 != id)

/-! ### Data model

The `Resource` Mongoose schema file is not among the given sources; its fields
are reconstructed from the repository and service code that reads and writes
them (`resource.repository.ts`, `resource.service.ts`, the migration command).
Numeric fields are JavaScript numbers, embedded as `Int`. -/

structure Resource where
  title : String := ""
  isbn : Option String := none
  notes : Option String := none
  coverImageUrl : Option String := none
  categoryId : Option OId := none
  locationId : Option OId := none
  authorIds : List OId := []
  available : Bool := true
  totalQuantity : Int := 1
  currentLoansCount : Int := 0
  totalLoans : Int := 0
  lostQuantity : Int := 0
  damagedQuantity : Int := 0
  maintenanceQuantity : Int := 0
  lastLoanDate : Option Ms := none
  deriving Repr, DecidableEq

abbrev ResStore := List (OId × Resource)

structure LoanStatus where
  id : OId
  name : String
  deriving Repr, DecidableEq

structure Loan where
  id : OId
  personId : OId
  resourceId : OId
  quantity : Int
  loanDate : Ms
  dueDate : Ms
  returnedDate : Option Ms := none
  statusId : OId
  observations : Option String := none
  loanedBy : OId := ""
  renewedBy : Option OId := none
  renewedAt : Option Ms := none
  deriving Repr, DecidableEq

abbrev LoanStore := List (OId × Loan)

structure Person where
  id : OId
  firstName : String
  lastName : String
  documentNumber : String := ""
  deriving Repr, DecidableEq

/-- Errors thrown by the services: `BadRequestException` / `NotFoundException`. -/
inductive ServiceError where
  | badRequest (msg : String)
  | notFoundErr (msg : String)
  deriving Repr, DecidableEq

/-- Modelled from the spec: `LoanStatusRepository.findByName` is not among the
given sources (only its callers are); the spec describes loans as carrying a
status (`active`, `overdue`, `returned`, `lost`) looked up by name in the
status catalog, so the lookup is the first catalog entry with that name. -/
def findStatusByName (statuses : List LoanStatus) (n : String) : Option LoanStatus :=
  statuses.find? (fun st => st.name == n)

/-! ### ResourceRepository stock operations
     (`src/modules/resource/repositories/resource.repository.ts`) -/

/-- `ResourceRepository.incrementCurrentLoans`: `$inc` on `currentLoansCount`
and `totalLoans` by `quantity`, `$set` of `lastLoanDate` to now; `false` when
the id is invalid or no document matches. -/
def incrementCurrentLoans (valid : OId → Bool) (now : Ms) (s : ResStore)
    (resourceId : OId) (quantity : Int) : Bool × ResStore :=
  if valid resourceId then
    match findEntry s resourceId with
    | none => (false, s)
    | some r =>
      let r2 := { r with
        currentLoansCount := r.currentLoansCount + quantity
        totalLoans := r.totalLoans + quantity
        lastLoanDate := some now }
      (true, setEntry s resourceId r2)
  else (false, s)

/-- `ResourceRepository.decrementCurrentLoans`: `$inc` by `-quantity`, then a
compensating write setting `currentLoansCount` to 0 when the updated document
came back negative. -/
def decrementCurrentLoans (valid : OId → Bool) (s : ResStore)
    (resourceId : OId) (quantity : Int) : Bool × ResStore :=
  if valid resourceId then
    match findEntry s resourceId with
    | none => (false, s)
    | some r =>
      let r2 := { r with currentLoansCount := r.currentLoansCount - quantity }
      let s2 := setEntry s resourceId r2
      if r2.currentLoansCount < 0 then
        (true, setEntry s2 resourceId { r2 with currentLoansCount := 0 })
      else (true, s2)
  else (false, s)

/-- `ResourceRepository.syncCurrentLoansCount`: sets `currentLoansCount` to
`max 0 realCurrentLoans`. -/
def syncCurrentLoansCount (valid : OId → Bool) (s : ResStore)
    (resourceId : OId) (realCurrentLoans : Int) : Bool × ResStore :=
  if valid resourceId then
    match findEntry s resourceId with
    | none => (false, s)
    | some r =>
      (true, setEntry s resourceId { r with currentLoansCount := max 0 realCurrentLoans })
  else (false, s)

/-- `ResourceRepository.updateTotalQuantity`: rejects totals below 1, missing
resources, and totals below the current loan count (each rejection is a thrown
error caught by the method, which then returns `null` with the store
untouched). -/
def updateTotalQuantity (valid : OId → Bool) (s : ResStore)
    (resourceId : OId) (newTotalQuantity : Int) : Option Resource × ResStore :=
  if valid resourceId then
    if newTotalQuantity < 1 then (none, s)
    else
      match findEntry s resourceId with
      | none => (none, s)
      | some r =>
        if newTotalQuantity < r.currentLoansCount then (none, s)
        else
          let r2 := { r with totalQuantity := newTotalQuantity }
          (some r2, setEntry s resourceId r2)
  else (none, s)

/-- `ResourceRepository.restoreLostUnits`: refuses when fewer than `quantity`
units are currently lost, otherwise `$inc` of `lostQuantity` by `-quantity`. -/
def restoreLostUnits (valid : OId → Bool) (s : ResStore)
    (resourceId : OId) (quantity : Int) : Bool × ResStore :=
  if valid resourceId then
    match findEntry s resourceId with
    | none => (false, s)
    | some r =>
      if r.lostQuantity < quantity then (false, s)
      else (true, setEntry s resourceId { r with lostQuantity := r.lostQuantity - quantity })
  else (false, s)

/-- `ResourceRepository.restoreDamagedUnits`. -/
def restoreDamagedUnits (valid : OId → Bool) (s : ResStore)
    (resourceId : OId) (quantity : Int) : Bool × ResStore :=
  if valid resourceId then
    match findEntry s resourceId with
    | none => (false, s)
    | some r =>
      if r.damagedQuantity < quantity then (false, s)
      else (true, setEntry s resourceId { r with damagedQuantity := r.damagedQuantity - quantity })
  else (false, s)

/-- `ResourceRepository.restoreMaintenanceUnits`. -/
def restoreMaintenanceUnits (valid : OId → Bool) (s : ResStore)
    (resourceId : OId) (quantity : Int) : Bool × ResStore :=
  if valid resourceId then
    match findEntry s resourceId with
    | none => (false, s)
    | some r =>
      if r.maintenanceQuantity < quantity then (false, s)
      else (true, setEntry s resourceId { r with maintenanceQuantity := r.maintenanceQuantity - quantity })
  else (false, s)

/-! ### Loan service (`src/modules/loan/services/loan.service.ts`) -/

structure CreateLoanDto where
  personId : OId
  resourceId : OId
  quantity : Option Int := none
  observations : Option String := none
  deriving Repr, DecidableEq

/-- JavaScript `x || 1`: `undefined` and `0` are falsy and give 1. -/
def jsOrOne : Option Int → Int
  | none => 1
  | some n => if n = 0 then 1 else n

/-- JavaScript `s?.trim() || undefined`: a missing or all-whitespace string
becomes `undefined`. -/
def trimOrNone : Option String → Option String
  | none => none
  | some s => if s.trim = "" then none else some s.trim

/-- The slice of `LoanResponseDto` built by
`LoanService.transformToResponseDto` that the embedded `Loan` document
carries (the remaining DTO fields only echo populated sub-documents). -/
structure LoanResponseDto where
  id : OId
  personId : OId
  resourceId : OId
  quantity : Int
  loanDate : Ms
  dueDate : Ms
  returnedDate : Option Ms
  statusId : OId
  observations : Option String
  deriving Repr, DecidableEq

def transformToResponseDto (l : Loan) : LoanResponseDto :=
  { id := l.id
    personId := l.personId
    resourceId := l.resourceId
    quantity := l.quantity
    loanDate := l.loanDate
    dueDate := l.dueDate
    returnedDate := l.returnedDate
    statusId := l.statusId
    observations := l.observations }

/-- Modelled from the spec: `LoanValidationService.validateLoanCreation` is not
among the given sources (only its callers are). The spec requires that a
resource's `currentLoansCount` stay between 0 and `totalQuantity`, so the
validation is modelled as succeeding exactly when the resource id is valid, the
resource exists, and at least the requested positive quantity of units is not
currently on loan. -/
def validateLoanCreation (valid : OId → Bool) (resources : ResStore)
    (resourceId : OId) (q : Int) : Bool :=
  valid resourceId &&
    match findEntry resources resourceId with
    | none => false
    | some r => decide (1 ≤ q) && decide (q ≤ r.totalQuantity - r.currentLoansCount)

namespace LoanService

/-- `LoanService.create`: validates the user id and the loan, resolves the
`active` status, stamps `loanDate := now` and `dueDate := now + 15 days`,
inserts the loan (`newLoanId` stands for the id Mongo generates), increments
the resource's stock counters (a failed increment is only logged), and
re-reads the created loan. -/
def create (valid : OId → Bool) (statuses : List LoanStatus) (now : Ms)
    (newLoanId : OId) (loans : LoanStore) (resources : ResStore)
    (dto : CreateLoanDto) (userId : OId) :
    Except ServiceError Loan × LoanStore × ResStore :=
  if valid userId then
    if validateLoanCreation valid resources dto.resourceId (jsOrOne dto.quantity) then
      match findStatusByName statuses "active" with
      | none => (.error (.badRequest "Estado de préstamo activo no encontrado"), loans, resources)
      | some activeStatus =>
        let loanDate := now
        let dueDate := loanDate + 15 * msPerDay
        let loan : Loan :=
          { id := newLoanId
            personId := dto.personId
            resourceId := dto.resourceId
            quantity := jsOrOne dto.quantity
            loanDate := loanDate
            dueDate := dueDate
            statusId := activeStatus.id
            observations := trimOrNone dto.observations
            loanedBy := userId }
        let loans2 := loans ++ [(newLoanId, loan)]
        let resources2 :=
          (incrementCurrentLoans valid now resources dto.resourceId (jsOrOne dto.quantity)).2
        match findEntry loans2 newLoanId with
        | none => (.error (.notFoundErr "Préstamo creado pero no se pudo recuperar"),
                   loans2, resources2)
        | some created => (.ok created, loans2, resources2)
    else (.error (.badRequest "Validación de préstamo fallida"), loans, resources)
  else (.error (.badRequest "ID de usuario inválido"), loans, resources)

/-- `LoanService.findById`. -/
def findById (valid : OId → Bool) (loans : LoanStore) (id : OId) :
    Except ServiceError LoanResponseDto :=
  if valid id then
    match findEntry loans id with
    | none => .error (.notFoundErr "Préstamo no encontrado")
    | some l => .ok (transformToResponseDto l)
  else .error (.badRequest "ID de préstamo inválido")

/-- `LoanService.renewLoan`: only the loan's `dueDate`, `renewedBy` and
`renewedAt` are written; the resource store is passed through untouched (the
method makes no `resourceRepository` call). -/
def renewLoan (valid : OId → Bool) (statuses : List LoanStatus) (now : Ms)
    (loans : LoanStore) (resources : ResStore)
    (id : OId) (additionalDays : Int) (userId : OId) :
    Except ServiceError Loan × LoanStore × ResStore :=
  if valid id then
    match findEntry loans id with
    | none => (.error (.notFoundErr "Préstamo no encontrado"), loans, resources)
    | some loan =>
      match findStatusByName statuses "active" with
      | none => (.error (.badRequest "Estado de préstamo activo no encontrado"), loans, resources)
      | some activeStatus =>
        if loan.statusId = activeStatus.id then
          let loan2 := { loan with
            dueDate := loan.dueDate + additionalDays * msPerDay
            renewedBy := some userId
            renewedAt := some now }
          let loans2 := setEntry loans id loan2
          match findEntry loans2 id with
          | none => (.error (.badRequest "Error al renovar el préstamo"), loans2, resources)
          | some renewed => (.ok renewed, loans2, resources)
        else (.error (.badRequest "Solo se pueden renovar préstamos activos"), loans, resources)
  else (.error (.badRequest "ID de préstamo inválido"), loans, resources)

structure BorrowCheck where
  canBorrow : Bool
  reason : Option String
  activeLoansCount : Nat
  hasOverdueLoans : Bool
  maxLoansAllowed : Nat
  deriving Repr, DecidableEq

/-- `LoanService.canPersonBorrow`: fetches the person's loans with the
`active` status, flags an overdue loan as one with `dueDate` in the past and
no `returnedDate`, and allows borrowing below the limit of 3 active loans. -/
def canPersonBorrow (valid : OId → Bool) (statuses : List LoanStatus) (now : Ms)
    (loans : LoanStore) (personId : OId) : Except ServiceError BorrowCheck :=
  if valid personId then
    match findStatusByName statuses "active" with
    | none => .error (.badRequest "Estado de préstamo activo no encontrado")
    | some activeStatus =>
      let activeLoans := (loans.map Prod.snd).filter
        (fun l => l.personId == personId && l.statusId == activeStatus.id)
      let hasOverdueLoans :=
        activeLoans.any (fun l => decide (l.dueDate < now) && l.returnedDate.isNone)
      let maxActiveLoans : Nat := 3
      let canBorrow := !hasOverdueLoans && decide (activeLoans.length < maxActiveLoans)
      let reason : Option String :=
        if hasOverdueLoans then some "Tiene préstamos vencidos."
        else if maxActiveLoans ≤ activeLoans.length then
          some "Ha alcanzado el límite de préstamos activos."
        else none
      .ok { canBorrow := canBorrow
            reason := reason
            activeLoansCount := activeLoans.length
            hasOverdueLoans := hasOverdueLoans
            maxLoansAllowed := maxActiveLoans }
  else .error (.badRequest "ID de persona inválido")

end LoanService

/-! ### Resource service
     (`src/modules/resource/services/core/resource.service.ts`) -/

structure UpdateResourceDto where
  title : Option String := none
  notes : Option String := none
  available : Option Bool := none
  coverImageUrl : Option String := none
  categoryId : Option OId := none
  locationId : Option OId := none
  authorIds : Option (List OId) := none
  deriving Repr, DecidableEq

/-- The slice of `ResourceResponseDto` built by
`ResourceService.mapToResponseDto` that the embedded `Resource` document
carries (the remaining DTO fields echo populated sub-documents). -/
structure ResourceResponseDto where
  id : OId
  title : String
  notes : Option String
  available : Bool
  isbn : Option String
  coverImageUrl : Option String
  totalQuantity : Int
  currentLoansCount : Int
  availableQuantity : Int
  hasStock : Bool
  totalLoans : Int
  lastLoanDate : Option Ms
  deriving Repr, DecidableEq

def mapToResponseDto (id : OId) (r : Resource) : ResourceResponseDto :=
  { id := id
    title := r.title
    notes := r.notes
    available := r.available
    isbn := r.isbn
    coverImageUrl := r.coverImageUrl
    totalQuantity := r.totalQuantity
    currentLoansCount := r.currentLoansCount
    availableQuantity := r.totalQuantity - r.currentLoansCount
    hasStock := decide (r.currentLoansCount < r.totalQuantity)
    totalLoans := r.totalLoans
    lastLoanDate := r.lastLoanDate }

namespace ResourceService

/-- The `updateData` object assembled by `ResourceService.update`: a field is
written only when the DTO carries it (for `title`, `categoryId`, `locationId`
the source tests JavaScript truthiness, so an empty string is skipped). -/
def applyUpdate (r : Resource) (dto : UpdateResourceDto) : Resource :=
  let r := match dto.title with
    | some t => if t = "" then r else { r with title := t.trim }
    | none => r
  let r := match dto.notes with
    | some n => { r with notes := some n.trim }
    | none => r
  let r := match dto.available with
    | some a => { r with available := a }
    | none => r
  let r := match dto.coverImageUrl with
    | some c => { r with coverImageUrl := some c.trim }
    | none => r
  let r := match dto.categoryId with
    | some c => if c = "" then r else { r with categoryId := some c }
    | none => r
  let r := match dto.locationId with
    | some c => if c = "" then r else { r with locationId := some c }
    | none => r
  match dto.authorIds with
    | some l => { r with authorIds := l }
    | none => r

/-- `ResourceService.findById`. -/
def findById (valid : OId → Bool) (s : ResStore) (id : OId) :
    Except ServiceError ResourceResponseDto :=
  if valid id then
    match findEntry s id with
    | none => .error (.notFoundErr "Recurso no encontrado")
    | some r => .ok (mapToResponseDto id r)
  else .error (.badRequest "ID de recurso inválido")

/-- `ResourceService.update`: invalid id → `BadRequestException` before any
repository call; missing resource → `NotFoundException`; otherwise the merged
update is written and the updated document is re-read and returned. -/
def update (valid : OId → Bool) (s : ResStore) (id : OId) (dto : UpdateResourceDto) :
    Except ServiceError ResourceResponseDto × ResStore :=
  if valid id then
    match findEntry s id with
    | none => (.error (.notFoundErr "Recurso no encontrado"), s)
    | some r =>
      let r2 := applyUpdate r dto
      let s2 := setEntry s id r2
      match findEntry s2 id with
      | none => (.error (.notFoundErr "Error al obtener el recurso actualizado"), s2)
      | some r3 => (.ok (mapToResponseDto id r3), s2)
  else (.error (.badRequest "ID de recurso inválido"), s)

/-- `ResourceService.delete`: invalid id → `BadRequestException`; missing
resource → `NotFoundException` (store untouched); otherwise the document is
deleted, with a final `NotFoundException` if the repository reported no
deletion. -/
def delete (valid : OId → Bool) (s : ResStore) (id : OId) :
    Except ServiceError Unit × ResStore :=
  if valid id then
    match findEntry s id with
    | none => (.error (.notFoundErr "Recurso no encontrado"), s)
    | some _ =>
      let deleted := (findEntry s id).isSome
      let s2 := eraseEntry s id
      if deleted then (.ok (), s2)
      else (.error (.notFoundErr "Recurso no encontrado"), s2)
  else (.error (.badRequest "ID de recurso inválido"), s)

end ResourceService

/-! ### Reports service (`ReportsService.getPersonLoans`, src/unnamed/part_004)

`new Date('YYYY-01-01')` and `new Date('YYYY-12-31')` parse as midnight UTC of
those days; the proleptic Gregorian calendar from 1970 gives their timestamps. -/

def isLeapYear (y : Nat) : Bool :=
  (y % 4 == 0 && y % 100 != 0) || y % 400 == 0

def daysInYear (y : Nat) : Nat :=
  if isLeapYear y then 366 else 365

/-- Days between 1970-01-01 and the start of year `y` (0 for years ≤ 1970). -/
def daysFromEpoch : Nat → Nat
  | 0 => 0
  | y + 1 => if y + 1 ≤ 1970 then 0 else daysFromEpoch y + daysInYear y

/-- Timestamp of `new Date(`${year}-01-01`)`: midnight UTC, January 1st. -/
def yearStartMs (y : Nat) : Ms := (daysFromEpoch y : Int) * msPerDay

/-- Timestamp of `new Date(`${year}-12-31`)`: midnight UTC, December 31st. -/
def dec31Ms (y : Nat) : Ms := ((daysFromEpoch (y + 1) : Int) - 1) * msPerDay

/-- The loan-date filter `{ $gte: startDate, $lte: endDate }` of
`getPersonLoans`. -/
def inYearRange (y : Nat) (t : Ms) : Bool :=
  decide (yearStartMs y ≤ t) && decide (t ≤ dec31Ms y)

/-- Written from the claim's words, for comparison with `inYearRange`:
"loanDate within year y" means on or after the first instant of year `y` and
before the first instant of year `y + 1`. -/
def inYearSpec (y : Nat) (t : Ms) : Bool :=
  decide (yearStartMs y ≤ t) && decide (t < yearStartMs (y + 1))

/-- The status name the report sees for a loan: the populated
`loan.statusId.name`, `'Sin estado'` when the status is missing. -/
def statusNameOf (statuses : List LoanStatus) (l : Loan) : String :=
  match statuses.find? (fun st => st.id == l.statusId) with
  | some st => st.name
  | none => "Sin estado"

structure SummaryCounts where
  totalLoans : Nat
  activeLoans : Nat
  overdueLoans : Nat
  returnedLoans : Nat
  lostLoans : Nat
  deriving Repr, DecidableEq

/-- `ReportsService.calculateSummary`: counts a person's loans whose
lower-cased status name is `active`, `overdue`, `returned` or `lost`. -/
def calculateSummary (statuses : List LoanStatus) (loans : List Loan) : SummaryCounts :=
  { totalLoans := loans.length
    activeLoans := loans.countP (fun l => (statusNameOf statuses l).toLower == "active")
    overdueLoans := loans.countP (fun l => (statusNameOf statuses l).toLower == "overdue")
    returnedLoans := loans.countP (fun l => (statusNameOf statuses l).toLower == "returned")
    lostLoans := loans.countP (fun l => (statusNameOf statuses l).toLower == "lost") }

/-- `ReportsService.calculatePersonStatus`: `up_to_date` (here `true`) iff the
person has no overdue and no active loan. -/
def calculatePersonStatus (statuses : List LoanStatus) (loans : List Loan) : Bool :=
  loans.countP (fun l => (statusNameOf statuses l).toLower == "overdue") == 0 &&
    loans.countP (fun l => (statusNameOf statuses l).toLower == "active") == 0

/-- The `status` query filter values (`LoanStatusFilter` in reports.dto.ts). -/
inductive LoanStatusFilter where
  | active
  | overdue
  | returned
  | lost
  deriving Repr, DecidableEq

def counterFor (s : SummaryCounts) : LoanStatusFilter → Nat
  | .active => s.activeLoans
  | .overdue => s.overdueLoans
  | .returned => s.returnedLoans
  | .lost => s.lostLoans

structure PersonLoanSummary where
  person : Person
  loans : List Loan
  summary : SummaryCounts
  upToDate : Bool
  deriving Repr, DecidableEq

/-- `ReportsService.getPersonLoans`. The Mongo regex search over
first/last name and document number is embedded as the boolean predicate
`searchOk` (the constant `true` predicate when no search is given); the
insertion-ordered grouping `Map` becomes deduplicated person ids plus a
per-person filter of the year's loans. -/
def getPersonLoans (statuses : List LoanStatus) (loans : List Loan)
    (people : List Person) (searchOk : Person → Bool)
    (statusFilter : List LoanStatusFilter) (year : Nat) : List PersonLoanSummary :=
  let filtered := loans.filter (fun l => inYearRange year l.loanDate)
  let personIds := (filtered.map (fun l => l.personId)).dedup
  let selectedPeople := people.filter (fun p => personIds.contains p.id && searchOk p)
  let summaries := selectedPeople.map (fun p =>
    let personLoans := filtered.filter (fun l => l.personId == p.id)
    { person := p
      loans := personLoans
      summary := calculateSummary statuses personLoans
      upToDate := calculatePersonStatus statuses personLoans : PersonLoanSummary })
  if statusFilter.isEmpty then summaries
  else summaries.filter (fun s => statusFilter.any (fun f => decide (0 < counterFor s.summary f)))

/-! ### Stock operation sequences

Claim C1 quantifies over sequences of the stock operations; `StockOp` is the
alphabet of those operations and `applyStockOp` dispatches each to its
embedding above (loan creation carries its loan store along). -/

inductive StockOp where
  | createLoan (newLoanId : OId) (dto : CreateLoanDto) (userId : OId)
  | dec (resourceId : OId) (quantity : Int)
  | sync (resourceId : OId) (realCurrentLoans : Int)
  | updTotal (resourceId : OId) (newTotalQuantity : Int)
  deriving Repr

def applyStockOp (valid : OId → Bool) (statuses : List LoanStatus) (now : Ms)
    (st : LoanStore × ResStore) : StockOp → LoanStore × ResStore
  | .createLoan nid dto uid =>
    let r := LoanService.create valid statuses now nid st.1 st.2 dto uid
    (r.2.1, r.2.2)
  | .dec id q => (st.1, (decrementCurrentLoans valid st.2 id q).2)
  | .sync id real => (st.1, (syncCurrentLoansCount valid st.2 id real).2)
  | .updTotal id n => (st.1, (updateTotalQuantity valid st.2 id n).2)

def runStockOps (valid : OId → Bool) (statuses : List LoanStatus) (now : Ms)
    (st : LoanStore × ResStore) (ops : List StockOp) : LoanStore × ResStore :=
  ops.foldl (applyStockOp valid statuses now) st

/-- The claim's invariant: every stored resource keeps
`0 ≤ currentLoansCount ≤ totalQuantity`. -/
def stockInvariant (s : ResStore) : Prop :=
  ∀ kv ∈ s, 0 ≤ kv.2.currentLoansCount ∧ kv.2.currentLoansCount ≤ kv.2.totalQuantity

/-- Side conditions under which a stock operation preserves the invariant:
decrements use a non-negative quantity and a loan-count sync reports a value
within the resource's total quantity. -/
def stockOpSafe (s : ResStore) : StockOp → Prop
  | .createLoan _ _ _ => True
  | .dec _ q => 0 ≤ q
  | .sync id real => ∀ r, findEntry s id = some r → real ≤ r.totalQuantity
  | .updTotal _ _ => True

def safeStockRun (valid : OId → Bool) (statuses : List LoanStatus) (now : Ms) :
    LoanStore × ResStore → List StockOp → Prop
  | _, [] => True
  | st, op :: ops =>
    stockOpSafe st.2 op ∧
      safeStockRun valid statuses now (applyStockOp valid statuses now st op) ops

/-! ### Counter operations (claim C2) -/

inductive CounterOp where
  | dec (resourceId : OId) (quantity : Int)
  | sync (resourceId : OId) (realCurrentLoans : Int)
  | restoreLost (resourceId : OId) (quantity : Int)
  | restoreDamaged (resourceId : OId) (quantity : Int)
  | restoreMaintenance (resourceId : OId) (quantity : Int)
  deriving Repr

def applyCounterOp (valid : OId → Bool) (s : ResStore) : CounterOp → ResStore
  | .dec id q => (decrementCurrentLoans valid s id q).2
  | .sync id real => (syncCurrentLoansCount valid s id real).2
  | .restoreLost id q => (restoreLostUnits valid s id q).2
  | .restoreDamaged id q => (restoreDamagedUnits valid s id q).2
  | .restoreMaintenance id q => (restoreMaintenanceUnits valid s id q).2

/-- The claim's quantity bound: each passed quantity is at least 1 (a sync
carries a measured count, not a quantity). -/
def counterOpQuantityOK : CounterOp → Prop
  | .dec _ q => 1 ≤ q
  | .sync _ _ => True
  | .restoreLost _ q => 1 ≤ q
  | .restoreDamaged _ q => 1 ≤ q
  | .restoreMaintenance _ q => 1 ≤ q

/-- The claim's conclusion: every stored resource has all four mutable
counters non-negative. -/
def countersNonneg (s : ResStore) : Prop :=
  ∀ kv ∈ s, 0 ≤ kv.2.currentLoansCount ∧ 0 ≤ kv.2.lostQuantity ∧
    0 ≤ kv.2.damagedQuantity ∧ 0 ≤ kv.2.maintenanceQuantity


instance {ε α : Type} [DecidableEq ε] [DecidableEq α] : DecidableEq (Except ε α) := fun x y =>
  match x, y with
  | .ok a, .ok b =>
    if h : a = b then isTrue (by rw [h]) else isFalse (fun he => by cases he; exact h rfl)
  | .ok _, .error _ => isFalse (fun he => Except.noConfusion he)
  | .error _, .ok _ => isFalse (fun he => Except.noConfusion he)
  | .error e, .error f =>
    if h : e = f then isTrue (by rw [h]) else isFalse (fun he => by cases he; exact h rfl)

/-! ### Concrete fixtures used by witnesses and counterexamples -/

def validAllC : OId → Bool := fun _ => true

def statusesC : List LoanStatus := [{ id := "st-active", name := "active" }]

def resC1 : Resource := { totalQuantity := 1 }

def storeC1 : ResStore := [("a", resC1)]

def storeW1 : ResStore := [("a", { totalQuantity := 3, currentLoansCount := 1 })]

def dtoW1 : CreateLoanDto := { personId := "p", resourceId := "a", quantity := some 2 }

def opsW1 : List StockOp :=
  [.dec "a" 1, .sync "a" 2, .updTotal "a" 5, .createLoan "l1" dtoW1 "u1"]

def storeW2 : ResStore := [("b", { lostQuantity := 2 })]

def resStoreW3 : ResStore := [("r", { totalQuantity := 3 })]

def dtoW3 : CreateLoanDto := { personId := "p", resourceId := "r", quantity := some 2 }

def loanW3 : Loan :=
  { id := "l1", personId := "p", resourceId := "r", quantity := 2,
    loanDate := 0, dueDate := 15 * msPerDay, statusId := "st-active", loanedBy := "u" }

def loanC4 : Loan :=
  { id := "l1", personId := "p", resourceId := "r", quantity := 1,
    loanDate := 0, dueDate := 10, statusId := "st-active" }

def loansC4 : LoanStore := [("l1", loanC4)]

def resC4 : ResStore := [("r", { totalQuantity := 2, currentLoansCount := 1 })]

def resW5 : Resource := {}

def loanW7 : Loan :=
  { id := "a", personId := "p", resourceId := "r", quantity := 1,
    loanDate := 0, dueDate := 1, statusId := "st-active" }

def loanC8 : Loan :=
  { id := "l9", personId := "p9", resourceId := "r9", quantity := 1,
    loanDate := dec31Ms 1970 + 3600000, dueDate := 0, statusId := "st-active" }

def personC8 : Person := { id := "p9", firstName := "Ana", lastName := "Diaz" }

def loanW8 : Loan :=
  { id := "l8", personId := "p1", resourceId := "r", quantity := 1,
    loanDate := yearStartMs 1970, dueDate := 5, statusId := "st-active" }

def personW8 : Person := { id := "p1", firstName := "A", lastName := "B" }

def loanC10 : Loan :=
  { id := "l2", personId := "p2", resourceId := "r2", quantity := 1,
    loanDate := 0, dueDate := 50, returnedDate := some 60, statusId := "st-active" }

def loanW10 : Loan :=
  { id := "l3", personId := "p3", resourceId := "r", quantity := 1,
    loanDate := 0, dueDate := 200, statusId := "st-active" }

def infoW10 : LoanService.BorrowCheck :=
  { canBorrow := true, reason := none, activeLoansCount := 1,
    hasOverdueLoans := false, maxLoansAllowed := 3 }

def loansW3 : LoanStore := [("l1", loanW3)]

def resStoreW3sub : ResStore :=
  [("r", { totalQuantity := 3, currentLoansCount := 2, totalLoans := 2, lastLoanDate := some 0 })]

/-! ### Lemmas about the store primitives -/

theorem findEntry_setEntry_self {α : Type} (s : List (OId × α)) (id : OId) (v : α)
    (h : (findEntry s id).isSome) : findEntry (setEntry s id v) id = some v := by
  induction s with
  | nil => simp [findEntry] at h
  | cons kv rest ih =>
    obtain ⟨k, w⟩ := kv
    by_cases hk : k = id
    · simp [findEntry, setEntry, hk]
    · simp [findEntry, setEntry, hk] at h ⊢
      exact ih h

theorem mem_setEntry {α : Type} {s : List (OId × α)} {id : OId} {v : α} {kv : OId × α}
    (h : kv ∈ setEntry s id v) : (kv.1 = id ∧ kv.2 = v) ∨ (kv.1 ≠ id ∧ kv ∈ s) := by
  induction s with
  | nil => simp [setEntry] at h
  | cons hd rest ih =>
    obtain ⟨k, w⟩ := hd
    by_cases hk : k = id
    · simp only [setEntry, if_pos hk, List.mem_cons] at h
      rcases h with h | h
      · subst h
        exact Or.inl ⟨hk, rfl⟩
      · rcases ih h with h' | h'
        · exact Or.inl h'
        · exact Or.inr ⟨h'.1, List.mem_cons_of_mem _ h'.2⟩
    · simp only [setEntry, if_neg hk, List.mem_cons] at h
      rcases h with h | h
      · subst h
        exact Or.inr ⟨hk, List.mem_cons_self _ _⟩
      · rcases ih h with h' | h'
        · exact Or.inl h'
        · exact Or.inr ⟨h'.1, List.mem_cons_of_mem _ h'.2⟩

theorem findEntry_some_mem {α : Type} {s : List (OId × α)} {id : OId} {v : α}
    (h : findEntry s id = some v) : (id, v) ∈ s := by
  induction s with
  | nil => simp [findEntry] at h
  | cons hd rest ih =>
    by_cases hk : hd.1 = id
    · simp [findEntry, hk] at h
      subst h
      rw [← hk]
      exact List.mem_cons_self _ _
    · simp [findEntry, hk] at h
      exact List.mem_cons_of_mem _ (ih h)

theorem findEntry_eraseEntry (s : List (OId × α)) (id : OId) :
    findEntry (eraseEntry s id) id = none := by
  induction s with
  | nil => rfl
  | cons hd rest ih =>
    by_cases hk : hd.1 = id
    · simpa [eraseEntry, hk] using ih
    · simpa [eraseEntry, List.filter_cons, hk, findEntry] using ih


/-! ### Preservation of the stock invariant (claim C1) -/

theorem stockInvariant_setEntry {s : ResStore} {id : OId} {r : Resource}
    (h : stockInvariant s) (h0 : 0 ≤ r.currentLoansCount)
    (h1 : r.currentLoansCount ≤ r.totalQuantity) : stockInvariant (setEntry s id r) := by
  intro kv hkv
  rcases mem_setEntry hkv with ⟨_, hv⟩ | ⟨_, hmem⟩
  · rw [hv]
    exact ⟨h0, h1⟩
  · exact h _ hmem

theorem stockInvariant_dec (valid : OId → Bool) {s : ResStore} (id : OId) {q : Int}
    (h : stockInvariant s) (hq : 0 ≤ q) :
    stockInvariant (decrementCurrentLoans valid s id q).2 := by
  unfold decrementCurrentLoans
  by_cases hv : valid id
  · simp only [hv, if_true]
    cases heq : findEntry s id with
    | none => exact h
    | some r =>
      obtain ⟨hr0, hr1⟩ := h _ (findEntry_some_mem heq)
      have hr0 : (0 : Int) ≤ r.currentLoansCount := hr0
      have hr1 : r.currentLoansCount ≤ r.totalQuantity := hr1
      dsimp only
      by_cases hneg : r.currentLoansCount - q < 0
      · simp only [hneg, if_true]
        intro kv hkv
        rcases mem_setEntry hkv with ⟨_, hv2⟩ | ⟨hne, hmem⟩
        · rw [hv2]
          exact ⟨le_refl 0, le_trans hr0 hr1⟩
        · rcases mem_setEntry hmem with ⟨hid, _⟩ | ⟨_, hmem2⟩
          · exact absurd hid hne
          · exact h _ hmem2
      · simp only [hneg, if_false]
        refine stockInvariant_setEntry h ?_ ?_
        · show (0 : Int) ≤ r.currentLoansCount - q
          omega
        · show r.currentLoansCount - q ≤ r.totalQuantity
          omega
  · simp only [hv, if_false]
    exact h

theorem stockInvariant_sync (valid : OId → Bool) {s : ResStore} (id : OId) {real : Int}
    (h : stockInvariant s)
    (hsafe : ∀ r, findEntry s id = some r → real ≤ r.totalQuantity) :
    stockInvariant (syncCurrentLoansCount valid s id real).2 := by
  unfold syncCurrentLoansCount
  by_cases hv : valid id
  · simp only [hv, if_true]
    cases heq : findEntry s id with
    | none => exact h
    | some r =>
      obtain ⟨hr0, hr1⟩ := h _ (findEntry_some_mem heq)
      have hr0 : (0 : Int) ≤ r.currentLoansCount := hr0
      have hr1 : r.currentLoansCount ≤ r.totalQuantity := hr1
      have hle := hsafe r heq
      refine stockInvariant_setEntry h (le_max_left 0 real) ?_
      show max 0 real ≤ r.totalQuantity
      exact max_le (le_trans hr0 hr1) hle
  · simp only [hv, if_false]
    exact h

theorem stockInvariant_updTotal (valid : OId → Bool) {s : ResStore} (id : OId) (n : Int)
    (h : stockInvariant s) :
    stockInvariant (updateTotalQuantity valid s id n).2 := by
  unfold updateTotalQuantity
  by_cases hv : valid id
  · simp only [hv, if_true]
    by_cases hn : n < 1
    · simp only [hn, if_true]
      exact h
    · simp only [hn, if_false]
      cases heq : findEntry s id with
      | none => exact h
      | some r =>
        obtain ⟨hr0, hr1⟩ := h _ (findEntry_some_mem heq)
        have hr0 : (0 : Int) ≤ r.currentLoansCount := hr0
        have hr1 : r.currentLoansCount ≤ r.totalQuantity := hr1
        dsimp only
        by_cases hlt : n < r.currentLoansCount
        · simp only [hlt, if_true]
          exact h
        · simp only [hlt, if_false]
          refine stockInvariant_setEntry h hr0 ?_
          show r.currentLoansCount ≤ n
          omega
  · simp only [hv, if_false]
    exact h

theorem stockInvariant_increment (valid : OId → Bool) (now : Ms) {s : ResStore}
    {id : OId} {q : Int}
    (h : stockInvariant s) (hval : validateLoanCreation valid s id q = true) :
    stockInvariant (incrementCurrentLoans valid now s id q).2 := by
  unfold validateLoanCreation at hval
  unfold incrementCurrentLoans
  rw [Bool.and_eq_true] at hval
  obtain ⟨hv, hrest⟩ := hval
  simp only [hv, if_true]
  cases heq : findEntry s id with
  | none => exact h
  | some r =>
    rw [heq] at hrest
    rw [Bool.and_eq_true, decide_eq_true_eq, decide_eq_true_eq] at hrest
    obtain ⟨hq1, hq2⟩ := hrest
    obtain ⟨hr0, hr1⟩ := h _ (findEntry_some_mem heq)
    have hr0 : (0 : Int) ≤ r.currentLoansCount := hr0
    have hr1 : r.currentLoansCount ≤ r.totalQuantity := hr1
    refine stockInvariant_setEntry h ?_ ?_
    · show (0 : Int) ≤ r.currentLoansCount + q
      omega
    · show r.currentLoansCount + q ≤ r.totalQuantity
      omega

theorem stockInvariant_create (valid : OId → Bool) (statuses : List LoanStatus)
    (now : Ms) (nid : OId) (loans : LoanStore) {s : ResStore}
    (dto : CreateLoanDto) (uid : OId) (h : stockInvariant s) :
    stockInvariant (LoanService.create valid statuses now nid loans s dto uid).2.2 := by
  unfold LoanService.create
  by_cases hu : valid uid
  · simp only [hu, if_true]
    by_cases hval : validateLoanCreation valid s dto.resourceId (jsOrOne dto.quantity) = true
    · simp only [hval, if_true]
      cases findStatusByName statuses "active" with
      | none => exact h
      | some st =>
        dsimp only
        cases findEntry (loans ++ [(nid, _)]) nid with
        | none => exact stockInvariant_increment valid now h hval
        | some created => exact stockInvariant_increment valid now h hval
    · simp only [hval, if_false]
      exact h
  · simp only [hu, if_false]
    exact h

theorem stockInvariant_applyStockOp (valid : OId → Bool) (statuses : List LoanStatus)
    (now : Ms) (st : LoanStore × ResStore) (op : StockOp)
    (h : stockInvariant st.2) (hsafe : stockOpSafe st.2 op) :
    stockInvariant (applyStockOp valid statuses now st op).2 := by
  cases op with
  | createLoan nid dto uid =>
    exact stockInvariant_create valid statuses now nid st.1 dto uid h
  | dec id q => exact stockInvariant_dec valid id h hsafe
  | sync id real => exact stockInvariant_sync valid id h hsafe
  | updTotal id n => exact stockInvariant_updTotal valid id n h


theorem stockInvariant_run (valid : OId → Bool) (statuses : List LoanStatus) (now : Ms)
    (ops : List StockOp) (st : LoanStore × ResStore)
    (h : stockInvariant st.2) (hsafe : safeStockRun valid statuses now st ops) :
    stockInvariant (runStockOps valid statuses now st ops).2 := by
  induction ops generalizing st with
  | nil => exact h
  | cons op ops ih =>
    obtain ⟨h1, h2⟩ := hsafe
    exact ih _ (stockInvariant_applyStockOp valid statuses now st op h h1) h2

/-! ### Non-negativity of the counters (claim C2) -/

theorem countersNonneg_setEntry {s : ResStore} {id : OId} {r : Resource}
    (h : countersNonneg s) (h1 : 0 ≤ r.currentLoansCount) (h2 : 0 ≤ r.lostQuantity)
    (h3 : 0 ≤ r.damagedQuantity) (h4 : 0 ≤ r.maintenanceQuantity) :
    countersNonneg (setEntry s id r) := by
  intro kv hkv
  rcases mem_setEntry hkv with ⟨_, hv⟩ | ⟨_, hmem⟩
  · rw [hv]
    exact ⟨h1, h2, h3, h4⟩
  · exact h _ hmem

theorem countersNonneg_applyCounterOp (valid : OId → Bool) {s : ResStore} (op : CounterOp)
    (h : countersNonneg s) (hq : counterOpQuantityOK op) :
    countersNonneg (applyCounterOp valid s op) := by
  cases op with
  | dec id q =>
    dsimp only [applyCounterOp]
    unfold decrementCurrentLoans
    by_cases hv : valid id
    · simp only [hv, if_true]
      cases heq : findEntry s id with
      | none => exact h
      | some r =>
        obtain ⟨hc, hl, hd, hm⟩ := h _ (findEntry_some_mem heq)
        have hl : (0 : Int) ≤ r.lostQuantity := hl
        have hd : (0 : Int) ≤ r.damagedQuantity := hd
        have hm : (0 : Int) ≤ r.maintenanceQuantity := hm
        dsimp only
        by_cases hneg : r.currentLoansCount - q < 0
        · simp only [hneg, if_true]
          intro kv hkv
          rcases mem_setEntry hkv with ⟨_, hv2⟩ | ⟨hne, hmem⟩
          · rw [hv2]
            exact ⟨le_refl 0, hl, hd, hm⟩
          · rcases mem_setEntry hmem with ⟨hid, _⟩ | ⟨_, hmem2⟩
            · exact absurd hid hne
            · exact h _ hmem2
        · simp only [hneg, if_false]
          refine countersNonneg_setEntry h ?_ hl hd hm
          show (0 : Int) ≤ r.currentLoansCount - q
          omega
    · simp only [hv, if_false]
      exact h
  | sync id real =>
    dsimp only [applyCounterOp]
    unfold syncCurrentLoansCount
    by_cases hv : valid id
    · simp only [hv, if_true]
      cases heq : findEntry s id with
      | none => exact h
      | some r =>
        obtain ⟨hc, hl, hd, hm⟩ := h _ (findEntry_some_mem heq)
        exact countersNonneg_setEntry h (le_max_left 0 real) hl hd hm
    · simp only [hv, if_false]
      exact h
  | restoreLost id q =>
    dsimp only [applyCounterOp]
    unfold restoreLostUnits
    by_cases hv : valid id
    · simp only [hv, if_true]
      cases heq : findEntry s id with
      | none => exact h
      | some r =>
        obtain ⟨hc, hl, hd, hm⟩ := h _ (findEntry_some_mem heq)
        have hc : (0 : Int) ≤ r.currentLoansCount := hc
        have hl : (0 : Int) ≤ r.lostQuantity := hl
        dsimp only
        by_cases hlt : r.lostQuantity < q
        · simp only [hlt, if_true]
          exact h
        · simp only [hlt, if_false]
          refine countersNonneg_setEntry h hc ?_ hd hm
          show (0 : Int) ≤ r.lostQuantity - q
          omega
    · simp only [hv, if_false]
      exact h
  | restoreDamaged id q =>
    dsimp only [applyCounterOp]
    unfold restoreDamagedUnits
    by_cases hv : valid id
    · simp only [hv, if_true]
      cases heq : findEntry s id with
      | none => exact h
      | some r =>
        obtain ⟨hc, hl, hd, hm⟩ := h _ (findEntry_some_mem heq)
        have hc : (0 : Int) ≤ r.currentLoansCount := hc
        have hd : (0 : Int) ≤ r.damagedQuantity := hd
        dsimp only
        by_cases hlt : r.damagedQuantity < q
        · simp only [hlt, if_true]
          exact h
        · simp only [hlt, if_false]
          refine countersNonneg_setEntry h hc hl ?_ hm
          show (0 : Int) ≤ r.damagedQuantity - q
          omega
    · simp only [hv, if_false]
      exact h
  | restoreMaintenance id q =>
    dsimp only [applyCounterOp]
    unfold restoreMaintenanceUnits
    by_cases hv : valid id
    · simp only [hv, if_true]
      cases heq : findEntry s id with
      | none => exact h
      | some r =>
        obtain ⟨hc, hl, hd, hm⟩ := h _ (findEntry_some_mem heq)
        have hc : (0 : Int) ≤ r.currentLoansCount := hc
        have hm : (0 : Int) ≤ r.maintenanceQuantity := hm
        dsimp only
        by_cases hlt : r.maintenanceQuantity < q
        · simp only [hlt, if_true]
          exact h
        · simp only [hlt, if_false]
          refine countersNonneg_setEntry h hc hl hd ?_
          show (0 : Int) ≤ r.maintenanceQuantity - q
          omega
    · simp only [hv, if_false]
      exact h


/-! ### Claim C1 -/

/-- C1, as stated, is false: `syncCurrentLoansCount` only clamps the supplied
count below at 0, so syncing the single-copy resource `"a"` (initially
satisfying the invariant) to a real count of 5 leaves `currentLoansCount = 5`
above `totalQuantity = 1`. -/
theorem claim_C1_counterexample :
    stockInvariant storeC1 ∧
      ¬ stockInvariant
        (applyStockOp validAllC statusesC 0 ([], storeC1) (StockOp.sync "a" 5)).2 := by
  constructor
  · unfold stockInvariant
    decide
  · unfold stockInvariant
    decide

/-- C1 (amended): for every resource store satisfying
`0 ≤ currentLoansCount ≤ totalQuantity` everywhere and every sequence of stock
operations (loan creation, `decrementCurrentLoans`, `syncCurrentLoansCount`,
`updateTotalQuantity`) in which each decrement quantity is non-negative and
each sync reports a count at most the target resource's `totalQuantity`, the
invariant still holds after the sequence completes (hence after each prefix). -/
theorem claim_C1 (valid : OId → Bool) (statuses : List LoanStatus) (now : Ms)
    (ops : List StockOp) (loans : LoanStore) (resources : ResStore)
    (h : stockInvariant resources)
    (hsafe : safeStockRun valid statuses now (loans, resources) ops) :
    stockInvariant (runStockOps valid statuses now (loans, resources) ops).2 :=
  stockInvariant_run valid statuses now ops (loans, resources) h hsafe

/-- Witness for C1: a concrete run of a decrement, a sync, a total-quantity
update and a loan creation over a concretely valid store. -/
theorem claim_C1_witness :
    stockInvariant (runStockOps validAllC statusesC 0 ([], storeW1) opsW1).2 := by
  have h : stockInvariant storeW1 := by
    unfold stockInvariant
    decide
  have hsafe : safeStockRun validAllC statusesC 0 ([], storeW1) opsW1 := by
    refine ⟨?_, ?_, trivial, trivial, trivial⟩
    · show (0 : Int) ≤ 1
      decide
    · intro r hr
      have he : findEntry (applyStockOp validAllC statusesC 0 ([], storeW1)
          (StockOp.dec "a" 1)).2 "a"
          = some { totalQuantity := 3, currentLoansCount := 0 } := by decide
      rw [he] at hr
      cases hr
      decide
  exact claim_C1 validAllC statusesC 0 opsW1 [] storeW1 h hsafe

/-! ### Claim C2 -/

/-- C2: starting from a store whose counters (`currentLoansCount`,
`lostQuantity`, `damagedQuantity`, `maintenanceQuantity`) are all
non-negative, any completed `decrementCurrentLoans`, `syncCurrentLoansCount`,
`restoreLostUnits`, `restoreDamagedUnits` or `restoreMaintenanceUnits` call
with quantity at least 1 leaves every counter non-negative. -/
theorem claim_C2 (valid : OId → Bool) (s : ResStore) (op : CounterOp)
    (h : countersNonneg s) (hq : counterOpQuantityOK op) :
    countersNonneg (applyCounterOp valid s op) :=
  countersNonneg_applyCounterOp valid op h hq

/-- Witness for C2: restoring one lost unit of a concrete resource with two
lost units keeps every counter non-negative. -/
theorem claim_C2_witness :
    countersNonneg (applyCounterOp validAllC storeW2 (CounterOp.restoreLost "b" 1)) := by
  have h : countersNonneg storeW2 := by
    unfold countersNonneg
    decide
  have hq : counterOpQuantityOK (CounterOp.restoreLost "b" 1) := by
    show (1 : Int) ≤ 1
    decide
  exact claim_C2 validAllC storeW2 (CounterOp.restoreLost "b" 1) h hq


theorem findEntry_append_of_none {α : Type} {s : List (OId × α)} {id : OId} (v : α)
    (h : findEntry s id = none) : findEntry (s ++ [(id, v)]) id = some v := by
  induction s with
  | nil => simp [findEntry]
  | cons hd rest ih =>
    obtain ⟨k, w⟩ := hd
    by_cases hk : k = id
    · simp [findEntry, hk] at h
    · simp [findEntry, hk] at h ⊢
      exact ih h

/-! ### Claim C3 -/

/-- C3: a successful `LoanService.create` (with a fresh loan id) increments
the referenced resource's `currentLoansCount` and `totalLoans` by exactly the
created loan's quantity, which is the DTO quantity with `undefined`/0
defaulting to 1. -/
theorem claim_C3 (valid : OId → Bool) (statuses : List LoanStatus) (now : Ms)
    (nid : OId) (loans : LoanStore) (resources : ResStore)
    (dto : CreateLoanDto) (uid : OId)
    (l : Loan) (loans2 : LoanStore) (resources2 : ResStore)
    (hfresh : findEntry loans nid = none)
    (hok : LoanService.create valid statuses now nid loans resources dto uid
        = (.ok l, loans2, resources2)) :
    l.quantity = jsOrOne dto.quantity ∧
      ∃ r, findEntry resources dto.resourceId = some r ∧
        findEntry resources2 dto.resourceId = some
          { r with currentLoansCount := r.currentLoansCount + l.quantity
                   totalLoans := r.totalLoans + l.quantity
                   lastLoanDate := some now } := by
  unfold LoanService.create at hok
  by_cases hu : valid uid
  swap
  · simp [hu] at hok
  simp only [hu, if_true] at hok
  by_cases hval : validateLoanCreation valid resources dto.resourceId (jsOrOne dto.quantity) = true
  swap
  · simp [hval] at hok
  simp only [hval, if_true] at hok
  cases hst : findStatusByName statuses "active" with
  | none => rw [hst] at hok; simp at hok
  | some st =>
    rw [hst] at hok
    dsimp only at hok
    rw [findEntry_append_of_none _ hfresh] at hok
    simp only [Prod.mk.injEq, Except.ok.injEq] at hok
    obtain ⟨hl, hlo, hre⟩ := hok
    subst hl
    subst hlo
    subst hre
    refine ⟨rfl, ?_⟩
    have hval' := hval
    unfold validateLoanCreation at hval'
    rw [Bool.and_eq_true] at hval'
    obtain ⟨hvr, hrest⟩ := hval'
    cases heq : findEntry resources dto.resourceId with
    | none => rw [heq] at hrest; simp at hrest
    | some r =>
      refine ⟨r, rfl, ?_⟩
      unfold incrementCurrentLoans
      simp only [hvr, if_true]
      rw [heq]
      dsimp only
      exact findEntry_setEntry_self resources dto.resourceId _ (by rw [heq]; rfl)

/-- Witness for C3: creating a 2-copy loan on a 3-copy resource moves its
counters from 0 to 2. -/
theorem claim_C3_witness :
    loanW3.quantity = jsOrOne dtoW3.quantity ∧
      ∃ r, findEntry resStoreW3 dtoW3.resourceId = some r ∧
        findEntry resStoreW3sub dtoW3.resourceId = some
          { r with currentLoansCount := r.currentLoansCount + loanW3.quantity
                   totalLoans := r.totalLoans + loanW3.quantity
                   lastLoanDate := some 0 } :=
  claim_C3 validAllC statusesC 0 "l1" [] resStoreW3 dtoW3 "u" loanW3 loansW3
    resStoreW3sub rfl (by decide)

/-! ### Claim C9 -/

/-- C9: every loan successfully created by `LoanService.create` (with a fresh
loan id) has `loanDate` equal to the creation timestamp and `dueDate` exactly
15 days after it. -/
theorem claim_C9 (valid : OId → Bool) (statuses : List LoanStatus) (now : Ms)
    (nid : OId) (loans : LoanStore) (resources : ResStore)
    (dto : CreateLoanDto) (uid : OId)
    (l : Loan) (loans2 : LoanStore) (resources2 : ResStore)
    (hfresh : findEntry loans nid = none)
    (hok : LoanService.create valid statuses now nid loans resources dto uid
        = (.ok l, loans2, resources2)) :
    l.loanDate = now ∧ l.dueDate = l.loanDate + 15 * msPerDay := by
  unfold LoanService.create at hok
  by_cases hu : valid uid
  swap
  · simp [hu] at hok
  simp only [hu, if_true] at hok
  by_cases hval : validateLoanCreation valid resources dto.resourceId (jsOrOne dto.quantity) = true
  swap
  · simp [hval] at hok
  simp only [hval, if_true] at hok
  cases hst : findStatusByName statuses "active" with
  | none => rw [hst] at hok; simp at hok
  | some st =>
    rw [hst] at hok
    dsimp only at hok
    rw [findEntry_append_of_none _ hfresh] at hok
    simp only [Prod.mk.injEq, Except.ok.injEq] at hok
    obtain ⟨hl, hlo, hre⟩ := hok
    subst hl
    exact ⟨rfl, rfl⟩

/-- Witness for C9: the concrete created loan of the C3 run is stamped
`loanDate = 0`, `dueDate = 15` days. -/
theorem claim_C9_witness :
    loanW3.loanDate = 0 ∧ loanW3.dueDate = loanW3.loanDate + 15 * msPerDay :=
  claim_C9 validAllC statusesC 0 "l1" [] resStoreW3 dtoW3 "u" loanW3 loansW3
    resStoreW3sub rfl (by decide)

/-! ### Claim C4 -/

/-- C4, as stated, is false: a successful `LoanService.renewLoan` leaves the
resource store — in particular the renewed loan's resource and its
`currentLoansCount` — exactly unchanged. -/
theorem claim_C4_counterexample :
    (LoanService.renewLoan validAllC statusesC 100 loansC4 resC4 "l1" 7 "u").1
        = .ok { loanC4 with dueDate := 10 + 7 * msPerDay
                            renewedBy := some "u"
                            renewedAt := some 100 } ∧
      (LoanService.renewLoan validAllC statusesC 100 loansC4 resC4 "l1" 7 "u").2.2 = resC4 ∧
      findEntry resC4 loanC4.resourceId = some { totalQuantity := 2, currentLoansCount := 1 } := by
  refine ⟨by decide, by decide, by decide⟩

/-- C4 (amended): `LoanService.renewLoan` never updates the resource store;
stock counters change on loan creation and return only, and a renewal leaves
them untouched. -/
theorem claim_C4 (valid : OId → Bool) (statuses : List LoanStatus) (now : Ms)
    (loans : LoanStore) (resources : ResStore) (id : OId) (d : Int) (uid : OId) :
    (LoanService.renewLoan valid statuses now loans resources id d uid).2.2 = resources := by
  unfold LoanService.renewLoan
  by_cases hv : valid id
  · simp only [hv, if_true]
    cases findEntry loans id with
    | none => rfl
    | some loan =>
      cases findStatusByName statuses "active" with
      | none => rfl
      | some st =>
        dsimp only
        by_cases hs : loan.statusId = st.id
        · rw [if_pos hs]
          cases findEntry (setEntry loans id _) id <;> rfl
        · rw [if_neg hs]
  · simp [hv]


/-! ### Claim C5 -/

/-- C5: after a successful `ResourceService.delete id`, a second
`ResourceService.delete id` throws `NotFoundException` and leaves the
resource store unchanged. -/
theorem claim_C5 (valid : OId → Bool) (s s2 : ResStore) (id : OId)
    (h : ResourceService.delete valid s id = (.ok (), s2)) :
    ResourceService.delete valid s2 id
      = (.error (.notFoundErr "Recurso no encontrado"), s2) := by
  unfold ResourceService.delete at h ⊢
  by_cases hv : valid id
  · simp only [hv, if_true] at h ⊢
    cases heq : findEntry s id with
    | none => rw [heq] at h; simp at h
    | some r =>
      rw [heq] at h
      simp only [Option.isSome_some, if_true, Prod.mk.injEq] at h
      obtain ⟨-, hs2⟩ := h
      subst hs2
      rw [findEntry_eraseEntry]
  · simp only [hv, if_false] at h
    simp at h

/-- Witness for C5: deleting resource `"a"` succeeds and empties the store;
the repeated delete then reports `NotFoundException` on the empty store. -/
theorem claim_C5_witness :
    ResourceService.delete validAllC [("a", resW5)] "a" = (.ok (), []) ∧
      ResourceService.delete validAllC [] "a"
        = (.error (.notFoundErr "Recurso no encontrado"), []) := by
  have h1 : ResourceService.delete validAllC [("a", resW5)] "a" = (.ok (), []) := by decide
  have h2 := claim_C5 validAllC [("a", resW5)] [] "a" h1
  exact ⟨h1, h2⟩

/-! ### Claim C6 -/

/-- C6: when the id fails ObjectId validation, `ResourceService.update` and
`LoanService.renewLoan` throw `BadRequestException` immediately, for every
store content, and return the stores unchanged. -/
theorem claim_C6 (valid : OId → Bool) (id : OId) (hv : valid id = false)
    (s : ResStore) (dto : UpdateResourceDto)
    (statuses : List LoanStatus) (now : Ms) (loans : LoanStore) (resources : ResStore)
    (d : Int) (uid : OId) :
    ResourceService.update valid s id dto
        = (.error (.badRequest "ID de recurso inválido"), s) ∧
      LoanService.renewLoan valid statuses now loans resources id d uid
        = (.error (.badRequest "ID de préstamo inválido"), loans, resources) := by
  constructor
  · unfold ResourceService.update
    simp [hv]
  · unfold LoanService.renewLoan
    simp [hv]

/-- Witness for C6: with a validity test that rejects everything, both calls
report `BadRequestException` on concrete stores, which stay unchanged. -/
theorem claim_C6_witness :
    ResourceService.update (fun _ => false) [("a", resW5)] "zzz" {}
        = (.error (.badRequest "ID de recurso inválido"), [("a", resW5)]) ∧
      LoanService.renewLoan (fun _ => false) statusesC 0 loansC4 resC4 "zzz" 3 "u"
        = (.error (.badRequest "ID de préstamo inválido"), loansC4, resC4) :=
  claim_C6 (fun _ => false) "zzz" rfl [("a", resW5)] {} statusesC 0 loansC4 resC4 3 "u"

/-! ### Claim C7 -/

/-- C7: `LoanService.findById` and `ResourceService.findById` throw
`NotFoundException` exactly when the id passes ObjectId validation but no
entity with that id is stored, and return the entity's response DTO when it
is stored. -/
theorem claim_C7 (valid : OId → Bool) (loans : LoanStore) (resources : ResStore) (id : OId) :
    ((∃ m, LoanService.findById valid loans id = .error (.notFoundErr m))
        ↔ valid id = true ∧ findEntry loans id = none)
      ∧ (∀ l, findEntry loans id = some l → valid id = true →
          LoanService.findById valid loans id = .ok (transformToResponseDto l))
      ∧ ((∃ m, ResourceService.findById valid resources id = .error (.notFoundErr m))
          ↔ valid id = true ∧ findEntry resources id = none)
      ∧ (∀ r, findEntry resources id = some r → valid id = true →
          ResourceService.findById valid resources id = .ok (mapToResponseDto id r)) := by
  refine ⟨?_, ?_, ?_, ?_⟩
  · unfold LoanService.findById
    by_cases hv : valid id
    · simp only [hv, if_true, true_and]
      cases heq : findEntry loans id with
      | none => simp
      | some l => simp
    · simp [hv]
  · intro l hl hv
    unfold LoanService.findById
    simp only [hv, if_true]
    rw [hl]
  · unfold ResourceService.findById
    by_cases hv : valid id
    · simp only [hv, if_true, true_and]
      cases heq : findEntry resources id with
      | none => simp
      | some r => simp
    · simp [hv]
  · intro r hr hv
    unfold ResourceService.findById
    simp only [hv, if_true]
    rw [hr]

/-- Witness for C7: a stored loan is returned as its DTO and a missing
resource reports `NotFoundException`. -/
theorem claim_C7_witness :
    LoanService.findById validAllC [("a", loanW7)] "a" = .ok (transformToResponseDto loanW7)
      ∧ ResourceService.findById validAllC ([] : ResStore) "a"
          = .error (.notFoundErr "Recurso no encontrado") := by
  have h := claim_C7 validAllC [("a", loanW7)] ([] : ResStore) "a"
  refine ⟨h.2.1 loanW7 (by decide) rfl, ?_⟩
  have h3 := (h.2.2.1).mpr ⟨rfl, rfl⟩
  exact by decide


/-! ### Claim C10 -/

/-- C10, as stated, is false: the overdue test also requires the loan to have
no `returnedDate`, so a person whose only active loan is past due but carries
a `returnedDate` is still allowed to borrow. -/
theorem claim_C10_counterexample :
    LoanService.canPersonBorrow validAllC statusesC 100 [("l2", loanC10)] "p2"
        = .ok { canBorrow := true, reason := none, activeLoansCount := 1,
                hasOverdueLoans := false, maxLoansAllowed := 3 }
      ∧ loanC10.personId = "p2" ∧ loanC10.statusId = "st-active"
      ∧ loanC10.dueDate < 100 := by
  refine ⟨by decide, rfl, rfl, by decide⟩

/-- C10 (amended): a successful `canPersonBorrow` returns `canBorrow = true`
exactly when the person has no active loan that is past due *and has no
returnedDate*, and has strictly fewer than 3 active loans; `maxLoansAllowed`
is always 3 and `activeLoansCount` is the number of active loans. -/
theorem claim_C10 (valid : OId → Bool) (statuses : List LoanStatus) (now : Ms)
    (loans : LoanStore) (pid : OId) (st : LoanStatus) (info : LoanService.BorrowCheck)
    (hst : findStatusByName statuses "active" = some st)
    (hok : LoanService.canPersonBorrow valid statuses now loans pid = .ok info) :
    (info.canBorrow = true ↔
        ((∀ l ∈ (loans.map Prod.snd).filter
              (fun l => l.personId == pid && l.statusId == st.id),
            l.returnedDate = none → ¬ l.dueDate < now)
          ∧ ((loans.map Prod.snd).filter
              (fun l => l.personId == pid && l.statusId == st.id)).length < 3))
      ∧ info.maxLoansAllowed = 3
      ∧ info.activeLoansCount
          = ((loans.map Prod.snd).filter
              (fun l => l.personId == pid && l.statusId == st.id)).length := by
  unfold LoanService.canPersonBorrow at hok
  by_cases hv : valid pid
  swap
  · simp [hv] at hok
  simp only [hv, if_true] at hok
  rw [hst] at hok
  dsimp only at hok
  rw [Except.ok.injEq] at hok
  subst hok
  refine ⟨?_, rfl, rfl⟩
  dsimp only
  rw [Bool.and_eq_true, Bool.not_eq_true', decide_eq_true_eq, List.any_eq_false]
  constructor
  · rintro ⟨h1, h2⟩
    refine ⟨?_, h2⟩
    intro l hl hret hdue
    have := h1 l hl
    rw [Bool.and_eq_true, decide_eq_true_eq, Option.isNone_iff_eq_none] at this
    exact this ⟨hdue, hret⟩
  · rintro ⟨h1, h2⟩
    refine ⟨?_, h2⟩
    intro l hl
    rw [Bool.and_eq_true, decide_eq_true_eq, Option.isNone_iff_eq_none]
    rintro ⟨hdue, hret⟩
    exact h1 l hl hret hdue

/-- Witness for C10: a person with one active, not-yet-due loan may borrow,
with `maxLoansAllowed = 3` and one counted active loan. -/
theorem claim_C10_witness :
    infoW10.canBorrow = true ∧ infoW10.maxLoansAllowed = 3 ∧
      infoW10.activeLoansCount
        = (([("l3", loanW10)].map Prod.snd).filter
            (fun l => l.personId == "p3" && l.statusId == "st-active")).length := by
  have h := claim_C10 validAllC statusesC 100 [("l3", loanW10)]
    "p3" { id := "st-active", name := "active" } infoW10 rfl (by decide)
  refine ⟨h.1.mpr ⟨?_, by decide⟩, h.2.1, h.2.2⟩
  intro l hl hret
  have hl' : l = loanW10 := by
    simp only [List.map_cons, List.map_nil] at hl
    simpa using (List.mem_filter.mp hl).1
  subst hl'
  decide


/-! ### Claim C8 -/

/-- C8, as stated, is false: the year filter ends at midnight UTC of December
31st (`new Date('1970-12-31')`), so a loan taken later on December 31st —
within year 1970 — is excluded and its person gets no summary. -/
theorem claim_C8_counterexample :
    inYearSpec 1970 loanC8.loanDate = true ∧
      getPersonLoans statusesC [loanC8] [personC8] (fun _ => true) [] 1970 = [] := by
  refine ⟨by decide, by decide⟩

/-- C8 (amended): with no status filter and pairwise-distinct person ids,
`getPersonLoans` returns a summary for a person exactly when the person
matches the search and has a loan with `loanDate` in the code's year window
(midnight UTC January 1st up to and including midnight UTC December 31st),
and each summary's counters count that person's window loans in total and by
lower-cased status name. -/
theorem claim_C8 (statuses : List LoanStatus) (loans : List Loan) (people : List Person)
    (searchOk : Person → Bool) (year : Nat)
    (hnd : (people.map Person.id).Nodup) :
    ∀ p ∈ people,
      ((∃ ps ∈ getPersonLoans statuses loans people searchOk [] year, ps.person.id = p.id)
          ↔ (searchOk p = true ∧
              ∃ l ∈ loans, inYearRange year l.loanDate = true ∧ l.personId = p.id))
        ∧ ∀ ps ∈ getPersonLoans statuses loans people searchOk [] year, ps.person.id = p.id →
            ps.summary.totalLoans
                = (loans.filter
                    (fun l => l.personId == p.id && inYearRange year l.loanDate)).length
              ∧ ps.summary.activeLoans
                = (loans.filter
                    (fun l => l.personId == p.id && inYearRange year l.loanDate)).countP
                    (fun l => (statusNameOf statuses l).toLower == "active")
              ∧ ps.summary.overdueLoans
                = (loans.filter
                    (fun l => l.personId == p.id && inYearRange year l.loanDate)).countP
                    (fun l => (statusNameOf statuses l).toLower == "overdue")
              ∧ ps.summary.returnedLoans
                = (loans.filter
                    (fun l => l.personId == p.id && inYearRange year l.loanDate)).countP
                    (fun l => (statusNameOf statuses l).toLower == "returned")
              ∧ ps.summary.lostLoans
                = (loans.filter
                    (fun l => l.personId == p.id && inYearRange year l.loanDate)).countP
                    (fun l => (statusNameOf statuses l).toLower == "lost") := by
  intro p hp
  unfold getPersonLoans
  simp only [List.isEmpty_nil, if_true]
  constructor
  · constructor
    · rintro ⟨ps, hps, hid⟩
      rw [List.mem_map] at hps
      obtain ⟨q, hq, hmk⟩ := hps
      rw [List.mem_filter] at hq
      obtain ⟨hqp, hcond⟩ := hq
      rw [Bool.and_eq_true] at hcond
      obtain ⟨hcont, hsearch⟩ := hcond
      have hpq : q.id = p.id := by rw [← hmk] at hid; exact hid
      have hq_eq : q = p := List.inj_on_of_nodup_map hnd hqp hp hpq
      refine ⟨by rw [← hq_eq]; exact hsearch, ?_⟩
      have hmem : q.id ∈ ((loans.filter (fun l => inYearRange year l.loanDate)).map
          (fun l => l.personId)).dedup := List.elem_iff.mp hcont
      rw [List.mem_dedup, List.mem_map] at hmem
      obtain ⟨l, hlf, hlid⟩ := hmem
      rw [List.mem_filter] at hlf
      exact ⟨l, hlf.1, hlf.2, hlid.trans hpq⟩
    · rintro ⟨hsearch, l, hl, hr, hpid⟩
      refine ⟨_, List.mem_map.mpr ⟨p, ?_, rfl⟩, rfl⟩
      rw [List.mem_filter]
      refine ⟨hp, ?_⟩
      rw [Bool.and_eq_true]
      refine ⟨List.elem_iff.mpr ?_, hsearch⟩
      rw [List.mem_dedup, List.mem_map]
      exact ⟨l, List.mem_filter.mpr ⟨hl, hr⟩, hpid⟩
  · intro ps hps hid
    rw [List.mem_map] at hps
    obtain ⟨q, hq, hmk⟩ := hps
    rw [List.mem_filter] at hq
    have hpq : q.id = p.id := by rw [← hmk] at hid; exact hid
    have hq_eq : q = p := List.inj_on_of_nodup_map hnd hq.1 hp hpq
    subst hmk
    rw [hq_eq]
    have hlist : (loans.filter (fun l => inYearRange year l.loanDate)).filter
        (fun l => l.personId == p.id)
        = loans.filter (fun l => l.personId == p.id && inYearRange year l.loanDate) :=
      List.filter_filter _ _
    dsimp only [calculateSummary]
    rw [hlist]
    exact ⟨rfl, rfl, rfl, rfl, rfl⟩

/-- Witness for C8: the concrete person `"p1"` with one in-window active loan
receives a summary. -/
theorem claim_C8_witness :
    ∃ ps ∈ getPersonLoans statusesC [loanW8] [personW8] (fun _ => true) [] 1970,
      ps.person.id = "p1" :=
  ((claim_C8 statusesC [loanW8] [personW8] (fun _ => true) 1970 (by decide)
      personW8 (by decide)).1).mpr
    ⟨rfl, loanW8, by decide, by decide, rfl⟩

end Biblio
